import Mathlib

/-
Verification of the TraceT decision engine and telescope dispatch layer.

Shallow embedding of:
  - tracet/models/conditions.py   (Vote, Decision, Factor, condition evaluators)
  - tracet/utils.py               (truthy)
  - tracet/models/trigger.py      (notice selection used by Decision.save)
  - TraceT2App/models/telescopes.py (Observation, Telescope.create_observation,
    check_override, make_request variants, MWAGW sweetspot selection)

Timestamps and durations are modelled as rationals, machine floats as
rationals, Django queryset operations as list filters and sorts, and the
Python exceptions used for control flow as Except values.
-/

namespace TraceT

/-- Vote is the three-valued decision domain, FAIL < MAYBE < PASS,
stored as the integers -1, 0, 1 (tracet/models/conditions.py, class Vote). -/
inductive Vote where
| FAIL
| MAYBE
| PASS
deriving DecidableEq, Repr

/-- Integer value of a Vote, matching the IntegerChoices values in the source. -/
def Vote.toInt : Vote → Int
| .FAIL => -1
| .MAYBE => 0
| .PASS => 1

/-- Binary minimum of two votes, as computed by the Python builtin min on the
underlying integers: the accumulator is kept unless the next value is strictly
smaller. -/
def vmin (a b : Vote) : Vote :=
  if b.toInt < a.toInt then b else a

/-- Python min over a nonempty argument list: fold vmin from the first element. -/
def pymin (v : Vote) (vs : List Vote) : Vote :=
  vs.foldl vmin v

/-- Source tag of a Decision (tracet/models/conditions.py, Decision.Source). -/
inductive Source where
| notice
| manual
| simulated
deriving DecidableEq, Repr

/-- A Factor records one condition evaluation: a description, an optional vote
(none models the indeterminate state), and the inherited flag
(tracet/models/conditions.py, class Factor). -/
structure Factor where
  condition : String
  vote : Option Vote
  inherited : Bool
deriving DecidableEq, Repr

/-- The fold operator Factor.__add__ from tracet/models/conditions.py.
When the right operand is indeterminate the left operand is carried forward
with inherited set; otherwise a fresh Factor is built from the right operand
without passing the inherited argument, so it takes the field default false. -/
def Factor.add (a b : Factor) : Factor :=
  if b.vote = none then
    ⟨a.condition, a.vote, true⟩
  else
    ⟨b.condition, b.vote, false⟩

/-- The vote list handed to Python min inside Decision.conclusion:
each factor contributes its vote with FAIL substituted for none, and
Vote.PASS is appended twice as in the source (so the argument list of min is
never empty). -/
def conclusionVotes (factors : List Factor) : List Vote :=
  factors.map (fun f => f.vote.getD Vote.FAIL) ++ [Vote.PASS, Vote.PASS]

/-- Decision.conclusion from tracet/models/conditions.py: the minimum over
conclusionVotes, with a MAYBE conclusion promoted to PASS when the source is
manual. -/
def conclusion (factors : List Factor) (source : Source) : Vote :=
  let c :=
    match conclusionVotes factors with
    | [] => Vote.PASS
    | v :: vs => pymin v vs
  if c = Vote.MAYBE ∧ source = Source.manual then Vote.PASS else c

/-- Stated from the claim wording for C1: the minimum Vote over the factors
(FAIL substituted for an indeterminate vote), defaulting to PASS when the
factor list is empty. -/
def claimMinimumVote (factors : List Factor) : Vote :=
  match factors.map (fun f => f.vote.getD Vote.FAIL) with
  | [] => Vote.PASS
  | v :: vs => vs.foldl vmin v

/-- Stated from the claim wording for C1: the minimum with the manual
promotion of MAYBE to PASS applied. -/
def claimConclusion (factors : List Factor) (source : Source) : Vote :=
  let c := claimMinimumVote factors
  if c = Vote.MAYBE ∧ source = Source.manual then Vote.PASS else c

lemma vmin_pass (x : Vote) : vmin x Vote.PASS = x := by
  cases x <;> decide

lemma pymin_append_pass_pass (v : Vote) (vs : List Vote) :
    pymin v (vs ++ [Vote.PASS, Vote.PASS]) = pymin v vs := by
  unfold pymin
  rw [List.foldl_append]
  simp [vmin_pass]

/-- C1: Decision.conclusion equals the minimum Vote over its Factors with FAIL
substituted for indeterminate votes, defaulting to PASS on an empty factor
list, and a MAYBE conclusion is promoted to PASS when the source is manual. -/
theorem C1_conclusion_is_min_with_manual_promotion
    (factors : List Factor) (source : Source) :
    conclusion factors source = claimConclusion factors source := by
  unfold conclusion claimConclusion claimMinimumVote conclusionVotes
  cases h : factors.map (fun f => f.vote.getD Vote.FAIL) with
  | nil => simp [h, pymin, vmin]
  | cons v vs =>
    simp only [h, List.cons_append]
    rw [pymin_append_pass_pass]
    rfl

/-- C2 counterexample: the claim says that for b with a determinate vote the
fold returns b unchanged with the inherited flag as given by b. At
a = Factor "a" none false and b = Factor "b" (some PASS) true the code
returns Factor "b" (some PASS) false, which differs from b. -/
theorem C2_cx_fold_drops_inherited_flag :
    Factor.add ⟨"a", none, false⟩ ⟨"b", some Vote.PASS, true⟩
      = ⟨"b", some Vote.PASS, false⟩
    ∧ Factor.add ⟨"a", none, false⟩ ⟨"b", some Vote.PASS, true⟩
      ≠ ⟨"b", some Vote.PASS, true⟩ := by
  constructor
  · rfl
  · decide

/-- C2 (amended): when b has an indeterminate vote the fold returns a with the
inherited flag set; otherwise it returns a Factor with the description and
vote of b and the inherited flag reset to false (the default of the field),
regardless of the inherited flag of b. -/
theorem C2_fold_operator (a b : Factor) :
    (b.vote = none → Factor.add a b = ⟨a.condition, a.vote, true⟩)
    ∧ (b.vote ≠ none → Factor.add a b = ⟨b.condition, b.vote, false⟩) := by
  constructor
  · intro h
    simp [Factor.add, h]
  · intro h
    simp [Factor.add, h]

/-- C2 witness: the amended fold theorem applied at concrete factors. -/
theorem C2_fold_operator_witness :
    Factor.add ⟨"x", some Vote.FAIL, false⟩ ⟨"y", none, false⟩
      = ⟨"x", some Vote.FAIL, true⟩
    ∧ Factor.add ⟨"x", some Vote.FAIL, false⟩ ⟨"y", some Vote.MAYBE, false⟩
      = ⟨"y", some Vote.MAYBE, false⟩ :=
  ⟨(C2_fold_operator ⟨"x", some Vote.FAIL, false⟩ ⟨"y", none, false⟩).1 rfl,
   (C2_fold_operator ⟨"x", some Vote.FAIL, false⟩ ⟨"y", some Vote.MAYBE, false⟩).2
     (by decide)⟩

/-! ## Scalar values and the truthiness coercion (tracet/utils.py) -/

/-- Python exceptions that the embedded code can raise. -/
inductive PyErr where
| valueError
| typeError
deriving DecidableEq, Repr

/-- A scalar payload value returned by Notice.query: a boolean, a number, or
a string (spec section 1: scalar results are opaque primitives). -/
inductive Scalar where
| bool (b : Bool)
| num (q : ℚ)
| str (s : String)
deriving DecidableEq, Repr

/-- Whitespace characters removed by the Python str.strip default. -/
def isSpaceChar (c : Char) : Bool :=
  c == ' ' || c == '\t' || c == '\n' || c == '\r'

/-- Python str.strip with the default argument: whitespace removed from both
ends. -/
def pyStrip (s : String) : String :=
  ⟨(((s.data.dropWhile isSpaceChar).reverse.dropWhile isSpaceChar).reverse)⟩

/-- Python str.lower restricted to ASCII letters, which covers every literal
consulted by truthy. -/
def pyLower (s : String) : String :=
  ⟨s.data.map (fun c => if 'A' ≤ c ∧ c ≤ 'Z' then Char.ofNat (c.toNat + 32) else c)⟩

/-- Numeric value of a run of decimal digits. -/
def digitsVal (cs : List Char) : ℕ :=
  cs.foldl (fun acc c => 10 * acc + (c.toNat - 48)) 0

/-- Model of the Python builtin float applied to a string: leading and
trailing whitespace is stripped, then an optional sign followed by decimal
digits with an optional fractional part is accepted. The exponent, inf and
nan forms accepted by Python are not needed by any claim and are omitted. -/
def pyFloat (s : String) : Option ℚ :=
  let cs := (pyStrip s).data
  let neg : Bool := match cs with
    | '-' :: _ => true
    | _ => false
  let rest : List Char := match cs with
    | '+' :: r => r
    | '-' :: r => r
    | r => r
  let ip := rest.takeWhile Char.isDigit
  let rest2 := rest.dropWhile Char.isDigit
  let mag : Option ℚ :=
    match rest2 with
    | [] => if ip.isEmpty then none else some (digitsVal ip)
    | '.' :: fp =>
      if fp.all Char.isDigit ∧ (ip ≠ [] ∨ fp ≠ []) then
        some ((digitsVal (ip ++ fp) : ℚ) / (10 : ℚ) ^ fp.length)
      else none
    | _ => none
  mag.map (fun m => if neg then -m else m)

/-- Python float applied to any scalar: booleans convert to 1 or 0, numbers
pass through, strings are parsed by pyFloat; a parse failure models the
ValueError raised by float. -/
def scalarFloat : Scalar → Option ℚ
| .bool b => some (if b then 1 else 0)
| .num q => some q
| .str s => pyFloat s

/-- The string literals treated as false by truthy, after strip and lower. -/
def falseLit (t : String) : Bool :=
  t == "0" || t == "false" || t == "no"

/-- The string literals treated as true by truthy, after strip and lower. -/
def trueLit (t : String) : Bool :=
  t == "1" || t == "true" || t == "yes"

/-- truthy from tracet/utils.py: booleans pass through; then float conversion
is attempted and a nonzero result is true (this branch also consumes numeric
strings); for the remaining strings the stripped lowercase literal sets are
consulted; anything else raises ValueError. -/
def truthy (val : Scalar) : Except PyErr Bool :=
  match val with
  | .bool b => .ok b
  | .num q => .ok (decide (q ≠ 0))
  | .str s =>
    match pyFloat s with
    | some q => .ok (decide (q ≠ 0))
    | none =>
      let t := pyLower (pyStrip s)
      if falseLit t then .ok false
      else if trueLit t then .ok true
      else .error .valueError

/-! ## Notices and condition evaluators (tracet/models/conditions.py) -/

/-- A Notice: a timestamp, the istest flag, and the queryable payload
modelled as an association list from selector to scalar. Notice.query on an
empty selector returns none, otherwise the first matching value or none
(tracet/models/notice.py, Notice.query; the istest flag is referenced by
tracet/signals.py and tracet/views.py). -/
structure PyNotice where
  created : ℚ
  istest : Bool
  fields : List (String × Scalar)
deriving DecidableEq, Repr

/-- Notice.query: empty selectors resolve to none; otherwise the first field
matching the selector, or none when the path matches nothing. -/
def PyNotice.query (n : PyNotice) (selector : String) : Option Scalar :=
  if selector = "" then none
  else (n.fields.find? (fun p => p.1 = selector)).map (fun p => p.2)

/-- Python str applied to a scalar, used by EqualityCondition. -/
def scalarStr : Scalar → String
| .bool b => if b then "True" else "False"
| .num q => toString q
| .str s => s

/-- A user-configured trigger condition: numeric range, boolean, or equality
(tracet/models/conditions.py; the candidate list of EqualityCondition is
modelled after the newline split performed by get_vals). -/
inductive TriggerCondition where
| numericRange (selector : String) (val1 val2 : ℚ) (ifTrue ifFalse : Vote)
| boolean (selector : String) (ifTrue ifFalse : Vote)
| equality (selector : String) (vals : List String) (ifTrue ifFalse : Vote)
deriving DecidableEq, Repr

/-- Description string of a condition, standing in for the Python __str__
methods; the claims never depend on its exact text. -/
def TriggerCondition.describe : TriggerCondition → String
| .numericRange selector _ _ _ _ => "IF " ++ selector ++ " IN RANGE"
| .boolean selector _ _ => "IF " ++ selector
| .equality selector _ _ _ => "IF " ++ selector ++ " IN CANDIDATES"

/-- The vote method of the three user condition classes. An absent value
yields an indeterminate Factor; a ValueError during conversion yields an
indeterminate Factor; otherwise the condition predicate chooses between
if_true and if_false. The numeric range test is val1 <= float(val) < val2. -/
def TriggerCondition.vote (c : TriggerCondition) (n : PyNotice) : Factor :=
  match c with
  | .numericRange selector val1 val2 ifTrue ifFalse =>
    match n.query selector with
    | none => ⟨c.describe, none, false⟩
    | some v =>
      match scalarFloat v with
      | none => ⟨c.describe, none, false⟩
      | some q =>
        if val1 ≤ q ∧ q < val2 then ⟨c.describe, some ifTrue, false⟩
        else ⟨c.describe, some ifFalse, false⟩
  | .boolean selector ifTrue ifFalse =>
    match n.query selector with
    | none => ⟨c.describe, none, false⟩
    | some v =>
      match truthy v with
      | .error _ => ⟨c.describe, none, false⟩
      | .ok true => ⟨c.describe, some ifTrue, false⟩
      | .ok false => ⟨c.describe, some ifFalse, false⟩
  | .equality selector vals ifTrue ifFalse =>
    match n.query selector with
    | none => ⟨c.describe, none, false⟩
    | some v =>
      if scalarStr v ∈ vals then ⟨c.describe, some ifTrue, false⟩
      else ⟨c.describe, some ifFalse, false⟩

/-- C7 counterexample: the claim says every string other than the six listed
literals is an error yielding an indeterminate Factor, but truthy first tries
float conversion, so the string "2" is coerced to true and a BooleanCondition
on it votes if_true instead of remaining indeterminate. -/
theorem C7_cx_numeric_string_is_not_an_error :
    truthy (Scalar.str "2") = Except.ok true
    ∧ (TriggerCondition.vote
        (TriggerCondition.boolean "x" Vote.PASS Vote.FAIL)
        ⟨0, false, [("x", Scalar.str "2")]⟩).vote = some Vote.PASS := by
  constructor
  · rfl
  · rfl

lemma falseLit_of_trueLit (t : String) : trueLit t = true → falseLit t = false := by
  intro h
  have h3 : (t = "1" ∨ t = "true") ∨ t = "yes" := by
    simpa [trueLit] using h
  rcases h3 with (h1 | h1) | h1 <;> subst h1 <;> decide

/-- C7 (amended): the truthiness coercion passes booleans through, makes
numbers true exactly when nonzero, treats strings that parse as a number
like that number (true exactly when nonzero), maps the stripped lowercase
literals 0, false and no to false and 1, true and yes to true, and raises on
every other string, which BooleanCondition records as an indeterminate
Factor (vote none). -/
theorem C7_boolean_condition_truthiness
    (selector : String) (ifTrue ifFalse : Vote) (n : PyNotice) :
    let c := TriggerCondition.boolean selector ifTrue ifFalse
    (n.query selector = none → (c.vote n).vote = none)
    ∧ (∀ b, n.query selector = some (Scalar.bool b) →
        (c.vote n).vote = some (if b then ifTrue else ifFalse))
    ∧ (∀ q, n.query selector = some (Scalar.num q) →
        (c.vote n).vote = some (if q = 0 then ifFalse else ifTrue))
    ∧ (∀ s q, n.query selector = some (Scalar.str s) → pyFloat s = some q →
        (c.vote n).vote = some (if q = 0 then ifFalse else ifTrue))
    ∧ (∀ s, n.query selector = some (Scalar.str s) → pyFloat s = none →
        falseLit (pyLower (pyStrip s)) = true → (c.vote n).vote = some ifFalse)
    ∧ (∀ s, n.query selector = some (Scalar.str s) → pyFloat s = none →
        trueLit (pyLower (pyStrip s)) = true → (c.vote n).vote = some ifTrue)
    ∧ (∀ s, n.query selector = some (Scalar.str s) → pyFloat s = none →
        falseLit (pyLower (pyStrip s)) = false →
        trueLit (pyLower (pyStrip s)) = false →
        (c.vote n).vote = none) := by
  refine ⟨?_, ?_, ?_, ?_, ?_, ?_, ?_⟩
  · intro h
    simp [TriggerCondition.vote, h]
  · intro b h
    cases b <;> simp [TriggerCondition.vote, h, truthy]
  · intro q h
    by_cases hq : q = 0 <;> simp [TriggerCondition.vote, h, truthy, hq]
  · intro s q h hf
    by_cases hq : q = 0 <;> simp [TriggerCondition.vote, h, truthy, hf, hq]
  · intro s h hf hlit
    simp [TriggerCondition.vote, h, truthy, hf, hlit]
  · intro s h hf hlit
    have hfl := falseLit_of_trueLit _ hlit
    simp [TriggerCondition.vote, h, truthy, hf, hfl, hlit]
  · intro s h hf hfl htl
    simp [TriggerCondition.vote, h, truthy, hf, hfl, htl]

/-- C7 witness: the amended truthiness theorem applied at concrete notices
covering a boolean passthrough, a false literal, and an unknown string. -/
theorem C7_boolean_condition_truthiness_witness :
    (TriggerCondition.vote (TriggerCondition.boolean "x" Vote.PASS Vote.FAIL)
      ⟨0, false, [("x", Scalar.bool true)]⟩).vote = some Vote.PASS
    ∧ (TriggerCondition.vote (TriggerCondition.boolean "x" Vote.PASS Vote.FAIL)
      ⟨0, false, [("x", Scalar.str " No ")]⟩).vote = some Vote.FAIL
    ∧ (TriggerCondition.vote (TriggerCondition.boolean "x" Vote.PASS Vote.FAIL)
      ⟨0, false, [("x", Scalar.str "banana")]⟩).vote = none := by
  refine ⟨?_, ?_, ?_⟩
  · have h := (C7_boolean_condition_truthiness "x" Vote.PASS Vote.FAIL
      ⟨0, false, [("x", Scalar.bool true)]⟩).2.1 true (by rfl)
    simpa using h
  · have h := (C7_boolean_condition_truthiness "x" Vote.PASS Vote.FAIL
      ⟨0, false, [("x", Scalar.str " No ")]⟩).2.2.2.2.1 " No " (by rfl) (by rfl)
      (by rfl)
    simpa using h
  · exact (C7_boolean_condition_truthiness "x" Vote.PASS Vote.FAIL
      ⟨0, false, [("x", Scalar.str "banana")]⟩).2.2.2.2.2.2 "banana" (by rfl)
      (by rfl) (by rfl) (by rfl)

/-- C8: NumericRangeCondition yields an indeterminate Factor when the
selector is absent or the value does not convert to a number, and otherwise
votes if_true exactly when val1 <= value < val2 (lower bound inclusive,
upper bound exclusive) and if_false otherwise. -/
theorem C8_numeric_range_condition
    (selector : String) (val1 val2 : ℚ) (ifTrue ifFalse : Vote) (n : PyNotice) :
    let c := TriggerCondition.numericRange selector val1 val2 ifTrue ifFalse
    (n.query selector = none → (c.vote n).vote = none)
    ∧ (∀ v, n.query selector = some v → scalarFloat v = none →
        (c.vote n).vote = none)
    ∧ (∀ v q, n.query selector = some v → scalarFloat v = some q →
        (c.vote n).vote
          = some (if val1 ≤ q ∧ q < val2 then ifTrue else ifFalse)) := by
  refine ⟨?_, ?_, ?_⟩
  · intro h
    simp [TriggerCondition.vote, h]
  · intro v h hf
    simp [TriggerCondition.vote, h, hf]
  · intro v q h hf
    by_cases hr : val1 ≤ q ∧ q < val2 <;>
      simp [TriggerCondition.vote, h, hf, hr]

/-- C8 witness: the range [10, 20) maps the value 10 to the if_true vote
(PASS) and the value 20 to the if_false vote (FAIL). -/
theorem C8_numeric_range_condition_witness :
    (TriggerCondition.vote
      (TriggerCondition.numericRange "v" 10 20 Vote.PASS Vote.FAIL)
      ⟨0, false, [("v", Scalar.num 10)]⟩).vote = some Vote.PASS
    ∧ (TriggerCondition.vote
      (TriggerCondition.numericRange "v" 10 20 Vote.PASS Vote.FAIL)
      ⟨0, false, [("v", Scalar.num 20)]⟩).vote = some Vote.FAIL := by
  constructor
  · have h := (C8_numeric_range_condition "v" 10 20 Vote.PASS Vote.FAIL
      ⟨0, false, [("v", Scalar.num 10)]⟩).2.2 (Scalar.num 10) 10 (by rfl) (by rfl)
    rw [h]
    norm_num
  · have h := (C8_numeric_range_condition "v" 10 20 Vote.PASS Vote.FAIL
      ⟨0, false, [("v", Scalar.num 20)]⟩).2.2 (Scalar.num 20) 20 (by rfl) (by rfl)
    rw [h]
    norm_num

/-! ## Decision.save: notice selection, expiration, factor recomputation
(tracet/models/conditions.py, Decision.save and ExpirationCondition) -/

/-- An Event as seen by Decision.save: the derived event time (none when no
notice supplied a parseable time), the trigger expiry in minutes, the
trigger condition list, and the attached notices. -/
structure PyEvent where
  time : Option ℚ
  expiry : ℚ
  conditions : List TriggerCondition
  notices : List PyNotice
deriving DecidableEq, Repr

/-- Stable insertion of a notice into a list sorted ascending by created. -/
def insertByCreated (n : PyNotice) : List PyNotice → List PyNotice
| [] => [n]
| m :: ms =>
  if n.created ≤ m.created then n :: m :: ms else m :: insertByCreated n ms

/-- Ascending sort by the created timestamp, modelling order_by("created"). -/
def sortByCreated (l : List PyNotice) : List PyNotice :=
  l.foldr insertByCreated []

/-- The notice set used by Decision.save in tracet/models/conditions.py:
the notices of the Decision's event with created <= the Decision's created
timestamp, ascending. No restriction on the istest flag is applied for any
Decision source. -/
def selectNotices (e : PyEvent) (created : ℚ) : List PyNotice :=
  sortByCreated (e.notices.filter (fun n => n.created ≤ created))

/-- ExpirationCondition.vote: PASS when now minus the event time is within
the expiry budget, MAYBE otherwise. When the event time is None the
subtraction raises TypeError (datetime minus None), modelled as an error. -/
def expirationVote (t0 : Option ℚ) (t1 : ℚ) (expiry : ℚ) : Except PyErr Factor :=
  match t0 with
  | none => .error .typeError
  | some t0v =>
    if t1 - t0v ≤ expiry then .ok ⟨"EXPIRATION", some Vote.PASS, false⟩
    else .ok ⟨"EXPIRATION", some Vote.MAYBE, false⟩

/-- The condition list built by Decision.save: the synthetic expiration
condition inserted at position 0 followed by the trigger conditions. -/
inductive SaveCondition where
| expiration (t0 : Option ℚ) (t1 : ℚ) (expiry : ℚ)
| user (c : TriggerCondition)
deriving DecidableEq, Repr

/-- Evaluation of one save condition on one notice; the user conditions never
raise, the expiration condition raises on a None event time. -/
def SaveCondition.eval : SaveCondition → PyNotice → Except PyErr Factor
| .expiration t0 t1 expiry, _ => expirationVote t0 t1 expiry
| .user c, n => .ok (c.vote n)

/-- Evaluation of every condition against one notice, in list order; the
first raised exception propagates, as in the Python list comprehension. -/
def evalAll (conds : List SaveCondition) (n : PyNotice) :
    Except PyErr (List Factor) :=
  match conds with
  | [] => .ok []
  | c :: cs => do
    let f ← c.eval n
    let fs ← evalAll cs n
    pure (f :: fs)

/-- The inner fold of Decision.save: each remaining notice is evaluated
against every condition and folded into the factor at the same position
with Factor.__add__. -/
def foldNotices (conds : List SaveCondition) (facs : List Factor) :
    List PyNotice → Except PyErr (List Factor)
| [] => .ok facs
| n :: ns => do
  let votes ← evalAll conds n
  foldNotices conds (List.zipWith Factor.add facs votes) ns

/-- The factor recomputation performed by Decision.save: with no qualifying
notice a single FAIL factor is produced; otherwise every condition is seeded
from the oldest notice and each younger notice is folded in with
Factor.__add__ position by position. An exception from a condition
evaluation propagates and aborts the save. -/
def decisionFactors (e : PyEvent) (created : ℚ) : Except PyErr (List Factor) :=
  match selectNotices e created with
  | [] => .ok [⟨"Event contains no notices", some Vote.FAIL, false⟩]
  | n0 :: rest =>
    let conds : List SaveCondition :=
      .expiration e.time created e.expiry :: e.conditions.map .user
    do
      let seed ← evalAll conds n0
      foldNotices conds seed rest

/-- The observable outcome of Decision.save: the recomputed factors together
with the conclusion, or the propagated exception. -/
def decisionSaveResult (e : PyEvent) (created : ℚ) (source : Source) :
    Except PyErr (List Factor × Vote) := do
  let facs ← decisionFactors e created
  pure (facs, conclusion facs source)

/-- C6: the notice selection of Decision.save at a concrete real decision.
The event holds a non-test notice at t=1 and a test notice at t=2; a
Decision with source notice created at t=3 folds both, including the test
notice, because the selection filters only on created and never on istest
(the claimed non-test restriction is absent). -/
theorem C6_cx_test_notice_included_for_real_decision :
    selectNotices
      ⟨some 0, 60, [],
        [⟨1, false, [("x", Scalar.bool true)]⟩,
         ⟨2, true, [("x", Scalar.bool false)]⟩]⟩ 3
      = [⟨1, false, [("x", Scalar.bool true)]⟩,
         ⟨2, true, [("x", Scalar.bool false)]⟩]
    ∧ (⟨2, true, [("x", Scalar.bool false)]⟩ : PyNotice).istest = true := by
  constructor
  · decide
  · rfl

/-- C9: for a Decision on an Event whose time is None and with at least one
qualifying notice, the expiration condition is evaluated first and the
subtraction of None raises TypeError, so Decision.save aborts with the
propagated exception instead of producing an indeterminate Factor. -/
theorem C9_none_event_time_aborts_save
    (e : PyEvent) (created : ℚ) (source : Source)
    (ht : e.time = none) (hn : selectNotices e created ≠ []) :
    decisionSaveResult e created source = .error .typeError := by
  obtain ⟨n0, rest, hsel⟩ := List.exists_cons_of_ne_nil hn
  unfold decisionSaveResult decisionFactors
  rw [hsel, ht]
  simp [evalAll, SaveCondition.eval, expirationVote, Bind.bind, Except.bind]

/-- C9 witness: the abort theorem applied at a concrete event with a None
time and one qualifying notice. -/
theorem C9_none_event_time_aborts_save_witness :
    decisionSaveResult
      ⟨none, 60, [TriggerCondition.boolean "x" Vote.PASS Vote.FAIL],
        [⟨1, false, [("x", Scalar.bool true)]⟩]⟩ 3 Source.notice
      = .error .typeError :=
  C9_none_event_time_aborts_save _ 3 Source.notice rfl (by decide)

/-! ## Telescope dispatch (TraceT2App/models/telescopes.py) -/

/-- Observation.Status from TraceT2App/models/telescopes.py. -/
inductive Status where
| api_ok
| api_failure
| clash
| request_failure
| data_failure
| unknown_failure
deriving DecidableEq, Repr

/-- The exception classes used for control flow inside
Telescope.create_observation, plus a catch-all for any other exception. -/
inductive DispatchExn where
| preparation
| override
| request
| rejection
| other
deriving DecidableEq, Repr

/-- The status assigned by the except clauses of create_observation. -/
def statusOfExn : DispatchExn → Status
| .preparation => .data_failure
| .override => .clash
| .request => .request_failure
| .rejection => .api_failure
| .other => .unknown_failure

/-- A persisted Observation row as read by check_override. -/
structure StoredObs where
  status : Status
  observatory : String
  finish : ℚ
  priority : ℤ
  istest : Bool
deriving DecidableEq, Repr

/-- The filter predicate of check_override: status API_OK, same observatory,
finish >= now. The istest flag is not consulted. -/
def obsActive (obsy : String) (now : ℚ) (o : StoredObs) : Bool :=
  o.status = Status.api_ok ∧ o.observatory = obsy ∧ now ≤ o.finish

/-- The queryset filter of check_override. -/
def activeObservations (store : List StoredObs) (obsy : String) (now : ℚ) :
    List StoredObs :=
  store.filter (obsActive obsy now)

/-- order_by("-finish").first(): the row with the greatest finish, keeping
the earlier row on ties. -/
def latestByFinish : List StoredObs → Option StoredObs
| [] => none
| o :: rest =>
  match latestByFinish rest with
  | none => some o
  | some b => if o.finish < b.finish then some b else some o

/-- Telescope.check_override: raise OverrideException when the most recent
still-active observation for this observatory exists and the new priority
does not exceed its priority. -/
def checkOverride (store : List StoredObs) (obsy : String) (now : ℚ)
    (priority : ℤ) : Except DispatchExn Unit :=
  match latestByFinish (activeObservations store obsy now) with
  | none => .ok ()
  | some c => if priority ≤ c.priority then .error .override else .ok ()

/-- The Observation produced by one call of Telescope.create_observation. -/
structure ObservationRec where
  observatory : String
  priority : ℤ
  istest : Bool
  status : Status
  finish : Option ℚ
deriving DecidableEq, Repr

/-- Telescope.create_observation: prepare_request, check_override and
make_request run in order inside one try block; the first raised exception
selects the terminal status, and a clean run ends with status API_OK.
The outcomes of prepare_request and make_request are passed in as the
Except values the corresponding method call would produce; make_request
returns the finish timestamp it assigns on success. istest is set to
(not trigger.active). -/
def createObservation (obsy : String) (priority : ℤ) (active : Bool)
    (store : List StoredObs) (now : ℚ)
    (prep : Except DispatchExn Unit)
    (request : Except DispatchExn (Option ℚ)) : ObservationRec :=
  match (do
    prep
    checkOverride store obsy now priority
    request : Except DispatchExn (Option ℚ)) with
  | .ok finish => ⟨obsy, priority, !active, .api_ok, finish⟩
  | .error e => ⟨obsy, priority, !active, statusOfExn e, none⟩

/-- The HTTP outcome seen by a make_request method: a transport failure
(requests.RequestException), or a received body. For a body, none models
text that fails to decode as JSON, and some b models a parsed JSON object
whose get("success", False) lookup evaluates to b. -/
inductive HttpResult where
| transportError
| body (success : Option Bool)
deriving DecidableEq, Repr

/-- Duration of an MWA observation on success:
nobs * number of frequency specifications * exposure + 120 seconds of
calibration, as computed in the make_request methods of MWACorrelator,
MWAVCS and MWAGW (frequency.split() is modelled by the list freqspecs). -/
def mwaDuration (nobs : ℤ) (freqspecs : List String) (exposure : ℚ) : ℚ :=
  nobs * freqspecs.length * exposure + 120

/-- make_request shared by the MWA variants (MWACorrelator, MWAVCS and MWAGW
differ only in URL and parameters): transport errors raise RequestException;
an undecodable body is only logged, after which the get call on the raw
response object raises AttributeError (caught by the catch-all clause);
a parsed response with a true success flag sets finish = now + duration;
otherwise RejectionException is raised. -/
def mwaMakeRequest (resp : HttpResult) (now : ℚ) (nobs : ℤ)
    (freqspecs : List String) (exposure : ℚ) : Except DispatchExn (Option ℚ) :=
  match resp with
  | .transportError => .error .request
  | .body none => .error .other
  | .body (some success) =>
    if success then .ok (some (now + mwaDuration nobs freqspecs exposure))
    else .error .rejection

/-- ATCA.make_request: transport errors raise RequestException; every
received body, whatever it contains, ends in RejectionException — the
response is never parsed for success (the source marks this with a TODO)
and finish is never set. -/
def atcaMakeRequest (resp : HttpResult) : Except DispatchExn (Option ℚ) :=
  match resp with
  | .transportError => .error .request
  | .body _ => .error .rejection

/-- C3 counterexample: the claim covers ATCA, but an ATCA dispatch whose
HTTP call succeeds with a success-reporting response still ends with status
API_FAILURE and no finish time, because ATCA.make_request unconditionally
raises RejectionException on any received body. -/
theorem C3_cx_atca_success_response_is_api_failure :
    createObservation "ATCA" 0 true [] 0 (.ok ())
      (atcaMakeRequest (.body (some true)))
      = ⟨"ATCA", 0, false, .api_failure, none⟩
    ∧ (createObservation "ATCA" 0 true [] 0 (.ok ())
        (atcaMakeRequest (.body (some true)))).status ≠ .api_ok := by
  constructor
  · rfl
  · decide

/-- C3 (amended): for the MWA variants (MWA-Correlator, MWA-VCS, MWA-GW),
when preparation and the override check pass, a response reporting success
yields status API_OK with finish = now + the computed duration, and a
response that parses but reports non-success yields status API_FAILURE;
for ATCA every received response, success-reporting or not, yields status
API_FAILURE because the response is never parsed. -/
theorem C3_make_request_classification
    (obsy : String) (p : ℤ) (active : Bool) (store : List StoredObs)
    (now : ℚ) (nobs : ℤ) (freqspecs : List String) (exposure : ℚ)
    (hov : checkOverride store obsy now p = .ok ()) :
    createObservation obsy p active store now (.ok ())
        (mwaMakeRequest (.body (some true)) now nobs freqspecs exposure)
      = ⟨obsy, p, !active, .api_ok, some (now + mwaDuration nobs freqspecs exposure)⟩
    ∧ (createObservation obsy p active store now (.ok ())
        (mwaMakeRequest (.body (some false)) now nobs freqspecs exposure)).status
      = .api_failure
    ∧ ∀ b, (createObservation obsy p active store now (.ok ())
        (atcaMakeRequest (.body b))).status = .api_failure := by
  refine ⟨?_, ?_, ?_⟩
  · simp [createObservation, mwaMakeRequest, hov, Bind.bind, Except.bind]
  · simp [createObservation, mwaMakeRequest, hov, Bind.bind, Except.bind,
      statusOfExn]
  · intro b
    simp [createObservation, atcaMakeRequest, hov, Bind.bind, Except.bind,
      statusOfExn]

/-- C3 witness: the classification theorem applied with an empty observation
store at concrete parameters. -/
theorem C3_make_request_classification_witness :
    createObservation "MWA" 1 true [] 0 (.ok ())
        (mwaMakeRequest (.body (some true)) 0 2 ["145,24"] 8)
      = ⟨"MWA", 1, false, .api_ok, some (0 + mwaDuration 2 ["145,24"] 8)⟩
    ∧ (createObservation "MWA" 1 true [] 0 (.ok ())
        (mwaMakeRequest (.body (some false)) 0 2 ["145,24"] 8)).status
      = .api_failure
    ∧ (createObservation "ATCA" 1 true [] 0 (.ok ())
        (atcaMakeRequest (.body (some false)))).status = .api_failure := by
  have h := C3_make_request_classification "MWA" 1 true [] 0 2 ["145,24"] 8 rfl
  have h2 := C3_make_request_classification "ATCA" 1 true [] 0 2 ["145,24"] 8 rfl
  exact ⟨h.1, h.2.1, h2.2.2 (some false)⟩

instance exceptDecEq {ε α : Type} [DecidableEq ε] [DecidableEq α] :
    DecidableEq (Except ε α) := fun x y =>
  match x, y with
  | .ok a, .ok b =>
    if h : a = b then isTrue (by rw [h])
    else isFalse (by intro hh; cases hh; exact h rfl)
  | .ok _, .error _ => isFalse (by intro hh; cases hh)
  | .error _, .ok _ => isFalse (by intro hh; cases hh)
  | .error e, .error f =>
    if h : e = f then isTrue (by rw [h])
    else isFalse (by intro hh; cases hh; exact h rfl)

/-- check_override either passes or raises OverrideException; no other
outcome exists. -/
lemma checkOverride_cases (store : List StoredObs) (obsy : String) (now : ℚ)
    (p : ℤ) :
    checkOverride store obsy now p = .ok ()
      ∨ checkOverride store obsy now p = .error .override := by
  unfold checkOverride
  cases latestByFinish (activeObservations store obsy now) with
  | none => exact Or.inl rfl
  | some c =>
    by_cases hp : p ≤ c.priority
    · exact Or.inr (by simp [hp])
    · exact Or.inl (by simp [hp])

/-- The status of an Observation is CLASH exactly when the override check
raised, provided preparation succeeded and the request outcome is not itself
an OverrideException (no make_request method ever raises one). -/
lemma createObservation_clash_iff (obsy : String) (p : ℤ) (active : Bool)
    (store : List StoredObs) (now : ℚ)
    (request : Except DispatchExn (Option ℚ))
    (hreq : request ≠ .error .override) :
    (createObservation obsy p active store now (.ok ()) request).status = .clash
      ↔ checkOverride store obsy now p = .error .override := by
  unfold createObservation
  rcases checkOverride_cases store obsy now p with hov | hov
  · rw [hov]
    cases request with
    | ok f => simp [hov, Bind.bind, Except.bind]
    | error e =>
      cases e <;> simp_all [hov, Bind.bind, Except.bind, statusOfExn]
  · rw [hov]
    simp [hov, Bind.bind, Except.bind, statusOfExn]

/-- C4 counterexample: two simultaneously active observations for the MWA
with finishes 10 and 20 and priorities 5 and 1. A new dispatch with
priority 3 satisfies the claim hypothesis — an active API_OK observation
(the one with priority 5) with priority >= 3 exists — yet the code compares
only against the latest-finish observation (priority 1) and proceeds to the
request instead of terminating with CLASH. -/
theorem C4_cx_higher_priority_incumbent_not_consulted :
    ((⟨Status.api_ok, "MWA", 10, 5, false⟩ : StoredObs)
        ∈ [(⟨Status.api_ok, "MWA", 10, 5, false⟩ : StoredObs),
           ⟨Status.api_ok, "MWA", 20, 1, false⟩]
      ∧ (⟨Status.api_ok, "MWA", 10, 5, false⟩ : StoredObs).status = Status.api_ok
      ∧ (⟨Status.api_ok, "MWA", 10, 5, false⟩ : StoredObs).observatory = "MWA"
      ∧ (0 : ℚ) ≤ (⟨Status.api_ok, "MWA", 10, 5, false⟩ : StoredObs).finish
      ∧ (3 : ℤ) ≤ (⟨Status.api_ok, "MWA", 10, 5, false⟩ : StoredObs).priority)
    ∧ (createObservation "MWA" 3 true
        [⟨Status.api_ok, "MWA", 10, 5, false⟩,
         ⟨Status.api_ok, "MWA", 20, 1, false⟩] 0 (.ok ()) (.ok none)).status
      ≠ Status.clash := by
  constructor
  · refine ⟨by decide, rfl, rfl, by decide, by decide⟩
  · decide

/-- C4 (amended): the override check consults only the still-active API_OK
observation with the latest finish for the observatory; the dispatch
terminates with CLASH exactly when that incumbent exists and its priority is
greater than or equal to the new priority, so a tie favors the incumbent and
a strictly greater new priority proceeds to the HTTP request. -/
theorem C4_override_check_semantics
    (store : List StoredObs) (obsy : String) (now : ℚ) (p : ℤ) :
    (checkOverride store obsy now p = .error .override
      ↔ ∃ c, latestByFinish (activeObservations store obsy now) = some c
          ∧ p ≤ c.priority)
    ∧ ∀ (active : Bool) (request : Except DispatchExn (Option ℚ)),
        request ≠ .error .override →
        ((createObservation obsy p active store now (.ok ()) request).status
            = .clash
          ↔ checkOverride store obsy now p = .error .override) := by
  constructor
  · cases h : latestByFinish (activeObservations store obsy now) with
    | none => simp [checkOverride, h]
    | some c =>
      by_cases hp : p ≤ c.priority <;> simp [checkOverride, h, hp]
  · intro active request hreq
    exact createObservation_clash_iff obsy p active store now request hreq

/-- C4 witness: the spec example — an incumbent with priority 5 and finish in
the future blocks a new priority-5 dispatch with CLASH, while a priority-6
dispatch is not blocked at this check. -/
theorem C4_override_check_semantics_witness :
    (createObservation "MWA" 5 true [⟨Status.api_ok, "MWA", 10, 5, false⟩] 0
      (.ok ()) (.ok none)).status = Status.clash
    ∧ (createObservation "MWA" 6 true [⟨Status.api_ok, "MWA", 10, 5, false⟩] 0
      (.ok ()) (.ok none)).status ≠ Status.clash := by
  constructor
  · exact ((C4_override_check_semantics
      [⟨Status.api_ok, "MWA", 10, 5, false⟩] "MWA" 0 5).2 true (.ok none)
      (by decide)).mpr (by decide)
  · intro hc
    have h := ((C4_override_check_semantics
      [⟨Status.api_ok, "MWA", 10, 5, false⟩] "MWA" 0 6).2 true (.ok none)
      (by decide)).mp hc
    exact absurd h (by decide)

lemma activeObservations_map_istest (f : StoredObs → Bool)
    (store : List StoredObs) (obsy : String) (now : ℚ) :
    activeObservations (store.map (fun o => {o with istest := f o})) obsy now
      = (activeObservations store obsy now).map (fun o => {o with istest := f o}) := by
  unfold activeObservations
  rw [List.filter_map]
  have hp : (obsActive obsy now) ∘ (fun o : StoredObs => {o with istest := f o})
      = obsActive obsy now := by
    funext o
    rfl
  rw [hp]

lemma latestByFinish_map_istest (f : StoredObs → Bool) (l : List StoredObs) :
    latestByFinish (l.map (fun o => {o with istest := f o}))
      = (latestByFinish l).map (fun o => {o with istest := f o}) := by
  induction l with
  | nil => rfl
  | cons o rest ih =>
    simp only [List.map_cons, latestByFinish, ih]
    cases latestByFinish rest with
    | none => rfl
    | some b =>
      by_cases h : o.finish < b.finish <;> simp [h]

/-- C10: the override check is blind to the istest flag. Rewriting the
istest flag of every stored observation arbitrarily leaves check_override
unchanged, and a single active API_OK test observation with priority >= the
new request priority terminates the dispatch with CLASH exactly as a real
observation would. -/
theorem C10_test_observation_blocks_like_real
    (store : List StoredObs) (obsy : String) (now : ℚ) (p : ℤ)
    (f : StoredObs → Bool) :
    checkOverride (store.map (fun o => {o with istest := f o})) obsy now p
      = checkOverride store obsy now p
    ∧ ∀ (b : Bool) (finish : ℚ) (prio : ℤ) (active : Bool)
        (request : Except DispatchExn (Option ℚ)),
        now ≤ finish → p ≤ prio →
        (createObservation obsy p active
          [⟨Status.api_ok, obsy, finish, prio, b⟩] now (.ok ()) request).status
          = Status.clash := by
  constructor
  · unfold checkOverride
    rw [activeObservations_map_istest, latestByFinish_map_istest]
    cases latestByFinish (activeObservations store obsy now) with
    | none => rfl
    | some c => rfl
  · intro b finish prio active request hf hp
    have hov : checkOverride [⟨Status.api_ok, obsy, finish, prio, b⟩] obsy now p
        = .error .override := by
      simp [checkOverride, activeObservations, latestByFinish, obsActive,
        hf, hp]
    unfold createObservation
    rw [hov]
    simp [Bind.bind, Except.bind, statusOfExn]

/-- C10 witness: a test observation (istest = true) with priority 5 and a
future finish blocks a later real dispatch with priority 5 with CLASH. -/
theorem C10_test_observation_blocks_like_real_witness :
    (createObservation "MWA" 5 true [⟨Status.api_ok, "MWA", 10, 5, true⟩] 0
      (.ok ()) (.ok none)).status = Status.clash :=
  (C10_test_observation_blocks_like_real [] "MWA" 0 5 (fun _ => true)).2
    true 10 5 true (.ok none) (by decide) (by decide)

/-! ## MWAGW sweetspot pointing selection
(TraceT2App/models/telescopes.py, MWAGW.prepare_request) -/

/-- Python min(separations, default=Angle(180, deg)): 180 for an empty list,
otherwise the minimum. -/
def minSep (dists : List ℚ) : ℚ :=
  match dists with
  | [] => 180
  | d :: ds => ds.foldl min d

lemma foldl_min_le_init (ds : List ℚ) (a : ℚ) : ds.foldl min a ≤ a := by
  induction ds generalizing a with
  | nil => exact le_refl a
  | cons d ds ih => exact le_trans (ih (min a d)) (min_le_left a d)

lemma foldl_min_le_mem (ds : List ℚ) (a d : ℚ) (h : d ∈ ds) :
    ds.foldl min a ≤ d := by
  induction ds generalizing a with
  | nil => cases h
  | cons x ds ih =>
    rcases List.mem_cons.mp h with hx | hx
    · subst hx
      exact le_trans (foldl_min_le_init ds (min a d)) (min_le_right a d)
    · exact ih (min a x) hx

lemma minSep_gt_all (dists : List ℚ) (h : 10 < minSep dists) :
    ∀ d ∈ dists, 10 < d := by
  intro d hd
  cases dists with
  | nil => cases hd
  | cons x ds =>
    rcases List.mem_cons.mp hd with hx | hx
    · subst hx
      exact lt_of_lt_of_le h (foldl_min_le_init ds d)
    · exact lt_of_lt_of_le h (foldl_min_le_mem ds x d hx)

/-- The greedy pointing loop of MWAGW.prepare_request: scan the coordinate
list in the given order; for each cell take the nearest sweetspot; append it
when the minimum separation to the already chosen pointings (180 when none
are chosen) exceeds 10 degrees; stop as soon as 4 pointings are chosen. The
post-append length check of the source loop is distributed over the two
branches of the separation test. -/
def selectPointings {α β : Type} (sep : α → α → ℚ) (nearest : β → α) :
    List β → List α → List α
| [], ps => ps
| c :: cs, ps =>
  if 10 < minSep (ps.map (fun p => sep (nearest c) p)) then
    if 4 ≤ (ps ++ [nearest c]).length then ps ++ [nearest c]
    else selectPointings sep nearest cs (ps ++ [nearest c])
  else
    if 4 ≤ ps.length then ps
    else selectPointings sep nearest cs ps

/-- The pointing list computed for the MWA GW request, starting from an
empty selection. -/
def greedySweetspots {α β : Type} (sep : α → α → ℚ) (nearest : β → α)
    (coords : List β) : List α :=
  selectPointings sep nearest coords []

lemma selectPointings_length {α β : Type} (sep : α → α → ℚ)
    (nearest : β → α) (cs : List β) :
    ∀ ps : List α, ps.length < 4 →
      (selectPointings sep nearest cs ps).length ≤ 4 := by
  induction cs with
  | nil =>
    intro ps h
    exact Nat.le_of_lt h
  | cons c cs ih =>
    intro ps h
    simp only [selectPointings]
    by_cases hsep : 10 < minSep (ps.map (fun p => sep (nearest c) p))
    · rw [if_pos hsep]
      by_cases hlen : 4 ≤ (ps ++ [nearest c]).length
      · rw [if_pos hlen]
        simpa using Nat.succ_le_of_lt h
      · rw [if_neg hlen]
        exact ih _ (Nat.lt_of_not_le hlen)
    · rw [if_neg hsep]
      by_cases hlen : 4 ≤ ps.length
      · rw [if_pos hlen]
        exact Nat.le_of_lt h
      · rw [if_neg hlen]
        exact ih _ h

lemma selectPointings_pairwise {α β : Type} (sep : α → α → ℚ)
    (nearest : β → α) (cs : List β) :
    ∀ ps : List α, List.Pairwise (fun a b => 10 < sep b a) ps →
      List.Pairwise (fun a b => 10 < sep b a)
        (selectPointings sep nearest cs ps) := by
  induction cs with
  | nil =>
    intro ps h
    exact h
  | cons c cs ih =>
    intro ps h
    simp only [selectPointings]
    by_cases hsep : 10 < minSep (ps.map (fun p => sep (nearest c) p))
    · rw [if_pos hsep]
      have hpw : List.Pairwise (fun a b => 10 < sep b a) (ps ++ [nearest c]) := by
        rw [List.pairwise_append]
        refine ⟨h, List.pairwise_singleton _ _, ?_⟩
        intro a ha b hb
        rcases List.mem_singleton.mp hb with rfl
        exact minSep_gt_all _ hsep (sep (nearest c) a)
          (List.mem_map_of_mem _ ha)
      by_cases hlen : 4 ≤ (ps ++ [nearest c]).length
      · rw [if_pos hlen]
        exact hpw
      · rw [if_neg hlen]
        exact ih _ hpw
    · rw [if_neg hsep]
      by_cases hlen : 4 ≤ ps.length
      · rw [if_pos hlen]
        exact h
      · rw [if_neg hlen]
        exact ih _ h

lemma selectPointings_sublist {α β : Type} (sep : α → α → ℚ)
    (nearest : β → α) (cs : List β) :
    ∀ ps : List α, ∃ t, selectPointings sep nearest cs ps = ps ++ t
      ∧ t.Sublist (cs.map nearest) := by
  induction cs with
  | nil =>
    intro ps
    exact ⟨[], by simp [selectPointings], List.nil_sublist _⟩
  | cons c cs ih =>
    intro ps
    simp only [selectPointings]
    by_cases hsep : 10 < minSep (ps.map (fun p => sep (nearest c) p))
    · rw [if_pos hsep]
      by_cases hlen : 4 ≤ (ps ++ [nearest c]).length
      · rw [if_pos hlen]
        exact ⟨[nearest c], rfl,
          List.cons_sublist_cons.mpr (List.nil_sublist _)⟩
      · rw [if_neg hlen]
        obtain ⟨t, heq, hsub⟩ := ih (ps ++ [nearest c])
        exact ⟨nearest c :: t, by simp [heq],
          List.cons_sublist_cons.mpr hsub⟩
    · rw [if_neg hsep]
      by_cases hlen : 4 ≤ ps.length
      · rw [if_pos hlen]
        exact ⟨[], by simp, List.nil_sublist _⟩
      · rw [if_neg hlen]
        obtain ⟨t, heq, hsub⟩ := ih ps
        exact ⟨t, heq, hsub.trans (List.sublist_cons_self _ _)⟩

/-- C5: for any separation function, nearest-sweetspot map and cell list in
scan order, the greedy selection produces at most 4 pointings, any later
chosen pointing is separated by strictly more than 10 degrees from every
earlier one, and the result is a subsequence of the per-cell nearest
sweetspots in scan order (each pointing is appended only when its separation
from every already chosen pointing exceeds 10 degrees, and the scan stops at
4 pointings or at the end of the list). -/
theorem C5_greedy_sweetspot_selection {α β : Type} (sep : α → α → ℚ)
    (nearest : β → α) (coords : List β) :
    (greedySweetspots sep nearest coords).length ≤ 4
    ∧ List.Pairwise (fun a b => 10 < sep b a)
        (greedySweetspots sep nearest coords)
    ∧ (greedySweetspots sep nearest coords).Sublist (coords.map nearest) := by
  refine ⟨?_, ?_, ?_⟩
  · exact selectPointings_length sep nearest coords ([] : List α) (by simp)
  · exact selectPointings_pairwise sep nearest coords [] (List.Pairwise.nil)
  · obtain ⟨t, heq, hsub⟩ := selectPointings_sublist sep nearest coords []
    unfold greedySweetspots
    rw [heq]
    simpa using hsub

end TraceT
